import Mathlib

/-!
Verification of the moka-cache wrapper library (src/lib.rs): a process-wide
key-value cache in which every entry stores an expiration policy next to a
bincode-encoded payload.  The crate functions are embedded as pure functions
over an explicit handle state.  The external moka store is modelled as a
finite association map (its get / insert / invalidate / contains_key
contract), and the external bincode codec is modelled abstractly as an
encode / decode pair, with concrete instances following the documented
bincode standard-configuration format at the value types the source
instantiates it with (byte vectors and booleans).
-/

namespace MokaCache

/-- Payload bytes (Rust Vec of u8); each list element stands for one byte. -/
abbrev Bytes := List Nat

/-- The Rust enum Expiration (src/lib.rs lines 15-21).  Magnitudes are u64
values, modelled as Nat below 2^64. -/
inductive Expiration where
  | Never : Expiration
  | Second : Nat → Expiration
  | Minute : Nat → Expiration
  | Hour : Nat → Expiration
  deriving DecidableEq

/-- 2^64, the u64 modulus: u64 multiplication in the source wraps modulo
this value in release builds. -/
def U64MOD : Nat := 18446744073709551616

/-- Expiration::as_duration (lines 23-32).  Durations are modelled as whole
seconds, mirroring Duration::from_secs.  The Minute and Hour arms multiply
u64 magnitudes, so every multiplication is reduced modulo 2^64. -/
def Expiration.as_duration : Expiration → Option Nat
  | .Never => none
  | .Second v => some v
  | .Minute v => some (v * 60 % U64MOD)
  | .Hour v => some (v * 60 % U64MOD * 60 % U64MOD)

/-- A stored entry value: the pair (Expiration, Vec of u8) (line 36). -/
abbrev CacheData := Expiration × Bytes

/-- The external moka store modelled as a finite association map from String
keys to entries (the store contract of spec section 6). -/
abbrev Store := List (String × CacheData)

/-- Lookup in the association map (moka get, ignoring time). -/
def storeLookup : Store → String → Option CacheData
  | [], _ => none
  | (k2, d) :: rest, k => if k2 = k then some d else storeLookup rest k

/-- Removal from the association map (moka invalidate). -/
def storeRemove : Store → String → Store
  | [], _ => []
  | (k2, d) :: rest, k =>
    if k2 = k then storeRemove rest k else (k2, d) :: storeRemove rest k

/-- Insert-or-replace in the association map (moka insert). -/
def storeInsert (st : Store) (k : String) (d : CacheData) : Store :=
  (k, d) :: storeRemove st k

/-- CacheExpiry::expire_after_create (lines 40-50): consults only the policy
stored in the entry; the Instant argument is modelled as an abstract tick. -/
def expire_after_create (key : String) (value : CacheData) (current_time : Nat) :
    Option Nat :=
  value.1.as_duration

/-- The cache instance installed by setup: the capacity bound, the optional
eviction listener (modelled opaquely by an identifier, since the crate never
invokes it itself), and the store contents. -/
structure AppCache where
  maxCap : Nat
  listener : Option Nat
  store : Store
  deriving DecidableEq

/-- The global OnceLock handle CacheHand (line 52): none while the process
is uninitialized. -/
abbrev CacheHand := Option AppCache

/-- The anyhow error values produced by the crate, as a closed type. -/
inductive CacheError where
  | cacheNull : CacheError
  | encodeFail : CacheError
  | alreadyInit : CacheError
  | keyNotFound : String → CacheError
  deriving DecidableEq

/-- Interface of the external bincode codec at one value type (spec section
6): encoding may fail, and decoding returns none on malformed or mismatched
input. -/
structure Codec (V : Type) where
  enc : V → Option Bytes
  dec : Bytes → Option V

/-- Little-endian value of a byte list. -/
def leRead : List Nat → Nat
  | [] => 0
  | x :: rest => x + 256 * leRead rest

/-- Little-endian byte list of the given width for a value. -/
def leWrite (width n : Nat) : Bytes :=
  match width with
  | 0 => []
  | w + 1 => n % 256 :: leWrite w (n / 256)

/-- The bincode standard-configuration unsigned varint decoder at u64: a
first byte below 251 stands for itself; marker 251 is followed by two
little-endian bytes, 252 by four, 253 by eight; any other first byte is
invalid for u64.  Returns the value and the unread remainder. -/
def decodeVarint : Bytes → Option (Nat × Bytes)
  | [] => none
  | x :: rest =>
    if x < 251 then some (x, rest)
    else if x = 251 then
      if 2 ≤ rest.length then some (leRead (rest.take 2), rest.drop 2) else none
    else if x = 252 then
      if 4 ≤ rest.length then some (leRead (rest.take 4), rest.drop 4) else none
    else if x = 253 then
      if 8 ≤ rest.length then some (leRead (rest.take 8), rest.drop 8) else none
    else none

/-- The bincode standard-configuration unsigned varint encoder (u64 range). -/
def encodeVarint (n : Nat) : Bytes :=
  if n < 251 then [n]
  else if n < 65536 then 251 :: leWrite 2 n
  else if n < 4294967296 then 252 :: leWrite 4 n
  else 253 :: leWrite 8 n

/-- A Vec of u8 under the bincode standard configuration: a varint length
header followed by the raw bytes.  Decoding reads the header and that many
bytes and ignores trailing input, as decode_from_slice does. -/
def decodeByteVec (b : Bytes) : Option Bytes :=
  match decodeVarint b with
  | none => none
  | some (n, rest) => if n ≤ rest.length then some (rest.take n) else none

/-- Encoding of a Vec of u8 under the bincode standard configuration. -/
def encodeByteVec (v : Bytes) : Bytes := encodeVarint v.length ++ v

/-- The bincode codec at Vec of u8 — the instance the source implicitly
uses inside refresh, where type inference at lines 148 and 161 forces the
value type of get to be Vec of u8. -/
def vecU8Codec : Codec Bytes where
  enc v := some (encodeByteVec v)
  dec := decodeByteVec

/-- The bincode codec at bool: one byte, 0 or 1; any other leading byte is
a decode error. -/
def boolCodec : Codec Bool where
  enc v := some [if v then 1 else 0]
  dec b :=
    match b with
    | [] => none
    | x :: _ => if x = 0 then some false else if x = 1 then some true else none

/-- setup (lines 55-71): builds a cache from the given capacity and optional
listener and tries to install it in the OnceLock; installation fails when a
cache is already present, leaving the installed cache unchanged. -/
def setup (callback : Option Nat) (max_cap : Nat) (s : CacheHand) :
    Except CacheError Unit × CacheHand :=
  match s with
  | some h => (Except.error CacheError.alreadyInit, some h)
  | none => (Except.ok (), some { maxCap := max_cap, listener := callback, store := [] })

/-- insert (lines 73-83): fails when the handle is uninitialized, then
encodes the value, propagating an encode failure, then writes the pair
(policy, bytes) into the store, replacing any entry under the key. -/
def insert {V : Type} (k : String) (value : V) (exp : Expiration) (C : Codec V)
    (s : CacheHand) : Except CacheError Unit × CacheHand :=
  match s with
  | none => (Except.error CacheError.cacheNull, none)
  | some h =>
    match C.enc value with
    | none => (Except.error CacheError.encodeFail, some h)
    | some b => (Except.ok (), some { h with store := storeInsert h.store k (exp, b) })

/-- get (lines 85-104): none when the handle is uninitialized; otherwise
looks the key up and decodes the payload at the caller type.  A decode
failure is logged — an effect outside this pure embedding — and folded into
none.  The function never produces an error value. -/
def get {V : Type} (k : String) (C : Codec V) (s : CacheHand) :
    Option (Expiration × V) :=
  match s with
  | none => none
  | some h =>
    match storeLookup h.store k with
    | none => none
    | some v =>
      match C.dec v.2 with
      | some value => some (v.1, value)
      | none => none

/-- get_exp (lines 106-115): returns the stored policy without touching the
payload; none when the handle is uninitialized or the key is absent. -/
def get_exp (k : String) (s : CacheHand) : Option Expiration :=
  match s with
  | none => none
  | some h =>
    match storeLookup h.store k with
    | none => none
    | some v => some v.1

/-- remove (lines 117-125): invalidates the key when a cache is installed
and otherwise does nothing. -/
def remove (k : String) (s : CacheHand) : CacheHand :=
  match s with
  | none => none
  | some h => some { h with store := storeRemove h.store k }

/-- contains_key (lines 127-133): presence test against the store; false
when the handle is uninitialized. -/
def contains_key (k : String) (s : CacheHand) : Bool :=
  match s with
  | none => false
  | some h => (storeLookup h.store k).isSome

/-- check_exp_interval (lines 136-140): drives run_pending_tasks on the
store; the untimed embedding has no pending maintenance, so a ready store
is returned unchanged and an uninitialized handle stays uninitialized. -/
def check_exp_interval (s : CacheHand) : CacheHand :=
  match s with
  | none => none
  | some h => some h

/-- refresh (lines 143-165): calls the facade get, whose value type is
forced by the store insert at line 161 to be Vec of u8, so the stored
payload is bincode-decoded as a byte vector.  On a miss — absent key,
uninitialized handle, or a payload that does not decode as a byte vector —
it fails with key-not-found; a Never entry is left untouched; otherwise the
entry is removed and the pair of the policy with the decoded bytes is
inserted directly into the store. -/
def refresh (k : String) (s : CacheHand) : Except CacheError Unit × CacheHand :=
  match get k vecU8Codec s with
  | none => (Except.error (CacheError.keyNotFound k), s)
  | some value =>
    if value.1 = Expiration.Never then (Except.ok (), s)
    else
      match remove k s with
      | none => (Except.ok (), none)
      | some h => (Except.ok (), some { h with store := storeInsert h.store k value })

/-- Looking a key up right after inserting it yields the inserted entry. -/
theorem storeLookup_insert_self (st : Store) (k : String) (d : CacheData) :
    storeLookup (storeInsert st k d) k = some d := by
  simp [storeInsert, storeLookup]

/-- Claim C1, code divergence: on a Ready cache holding the key with a
non-Never policy, refresh does not reinsert the stored pair — it reinserts
the bincode-decoded byte vector in place of the stored payload bytes, and it
fails outright when the payload does not parse as a byte vector. -/
theorem refresh_rewrites_payload :
    refresh "k" (some ⟨512, none, [("k", (Expiration.Second 5, [2, 97, 98]))]⟩) =
      (Except.ok (), some ⟨512, none, [("k", (Expiration.Second 5, [97, 98]))]⟩) ∧
    (refresh "k" (some ⟨512, none, [("k", (Expiration.Second 5, [1]))]⟩)).1 =
      Except.error (CacheError.keyNotFound "k") := by
  constructor <;> rfl

/-- Claim C2, code divergence: a present entry whose payload does not decode
as a bincode byte vector makes refresh return the key-not-found error, so
presence does not imply success. -/
theorem refresh_present_key_not_found :
    storeLookup [("k", (Expiration.Never, [1]))] "k" =
      some (Expiration.Never, [1]) ∧
    refresh "k" (some ⟨512, none, [("k", (Expiration.Never, [1]))]⟩) =
      (Except.error (CacheError.keyNotFound "k"),
        some ⟨512, none, [("k", (Expiration.Never, [1]))]⟩) := by
  constructor <;> rfl

/-- Claim C3 counterexample: the magnitude 2^64 - 1 is representable in u64,
but the minute conversion wraps modulo 2^64 instead of returning the exact
product. -/
theorem as_duration_minute_overflow :
    Expiration.as_duration (Expiration.Minute 18446744073709551615) ≠
      some (18446744073709551615 * 60) := by
  decide

/-- Claim C3 amended: as_duration returns none for Never and some v for
Second v; the Minute and Hour conversions are u64 multiplications by 60 and
by 3600, exact whenever the product is below 2^64 and wrapped modulo 2^64
otherwise. -/
theorem as_duration_spec (v : Nat) (hv : v < U64MOD) :
    Expiration.as_duration Expiration.Never = none ∧
    Expiration.as_duration (Expiration.Second v) = some v ∧
    Expiration.as_duration (Expiration.Minute v) = some (v * 60 % U64MOD) ∧
    Expiration.as_duration (Expiration.Hour v) = some (v * 3600 % U64MOD) ∧
    (v * 60 < U64MOD → Expiration.as_duration (Expiration.Minute v) = some (v * 60)) ∧
    (v * 3600 < U64MOD →
      Expiration.as_duration (Expiration.Hour v) = some (v * 3600)) := by
  refine ⟨rfl, rfl, rfl, ?_, ?_, ?_⟩
  · show some (v * 60 % U64MOD * 60 % U64MOD) = some (v * 3600 % U64MOD)
    rw [Nat.mod_mul_mod, mul_assoc]
    norm_num
  · intro hlt
    show some (v * 60 % U64MOD) = some (v * 60)
    rw [Nat.mod_eq_of_lt hlt]
  · intro hlt
    have h60 : v * 60 < U64MOD :=
      lt_of_le_of_lt (Nat.mul_le_mul_left v (by norm_num)) hlt
    show some (v * 60 % U64MOD * 60 % U64MOD) = some (v * 3600)
    rw [Nat.mod_eq_of_lt h60, mul_assoc]
    norm_num [Nat.mod_eq_of_lt hlt]

/-- Witness for the amended claim C3 at the concrete magnitude 7. -/
theorem as_duration_spec_witness :
    7 < U64MOD ∧ Expiration.as_duration (Expiration.Minute 7) = some 420 :=
  ⟨by decide, (as_duration_spec 7 (by decide)).2.2.2.2.1 (by decide)⟩

/-- Claim C4: after a successful insert of an encodable value on a Ready
cache, an immediate get at the same type returns the stored policy together
with the original value, given that the codec round-trips on that value. -/
theorem insert_get_roundtrip {V : Type} (h : AppCache) (k : String) (p : Expiration)
    (C : Codec V) (v : V) (b : Bytes)
    (henc : C.enc v = some b) (hdec : C.dec b = some v) :
    (insert k v p C (some h)).1 = Except.ok () ∧
    get k C (insert k v p C (some h)).2 = some (p, v) := by
  simp [insert, henc, get, storeLookup_insert_self, hdec]

/-- Witness for claim C4 at a concrete byte-vector value. -/
theorem insert_get_roundtrip_witness :
    (insert "k" [1, 2, 3] (Expiration.Second 9) vecU8Codec
        (some ⟨4, none, []⟩)).1 = Except.ok () ∧
    get "k" vecU8Codec
        (insert "k" [1, 2, 3] (Expiration.Second 9) vecU8Codec
          (some ⟨4, none, []⟩)).2 =
      some (Expiration.Second 9, [1, 2, 3]) :=
  insert_get_roundtrip ⟨4, none, []⟩ "k" (Expiration.Second 9) vecU8Codec
    [1, 2, 3] [3, 1, 2, 3] (by decide) (by decide)

/-- Claim C5: the handle is a two-state machine.  The first setup on an
uninitialized handle succeeds and installs the configured cache; any later
setup returns the already-initialized error and leaves the installed cache,
hence every subsequent operation, unaffected by its parameters. -/
theorem setup_once_state_machine (cb cb2 : Option Nat) (cap cap2 : Nat)
    (h : AppCache) :
    setup cb cap none =
      (Except.ok (), some { maxCap := cap, listener := cb, store := [] }) ∧
    setup cb2 cap2 (some h) = (Except.error CacheError.alreadyInit, some h) := by
  constructor <;> rfl

/-- Claim C6: with the handle uninitialized every operation degrades without
a state change: insert and refresh return errors, get and get_exp return
none, contains_key is false, and remove and check_exp_interval leave the
handle uninitialized. -/
theorem uninitialized_degrades {V : Type} (k : String) (v : V) (p : Expiration)
    (C : Codec V) :
    insert k v p C none = (Except.error CacheError.cacheNull, none) ∧
    get k C none = none ∧
    get_exp k none = none ∧
    contains_key k none = false ∧
    remove k none = none ∧
    check_exp_interval none = none ∧
    refresh k none = (Except.error (CacheError.keyNotFound k), none) :=
  ⟨rfl, rfl, rfl, rfl, rfl, rfl, rfl⟩

/-- Claim C7: get is total with no error return; it yields none exactly when
the handle is uninitialized, the key is absent, or the payload fails to
decode at the requested type, and otherwise it returns the stored policy
with the decoded value. -/
theorem get_none_characterization {V : Type} (C : Codec V) (k : String)
    (s : CacheHand) :
    (get k C s = none ↔
      s = none ∨
      (∃ h, s = some h ∧ storeLookup h.store k = none) ∨
      (∃ h p b, s = some h ∧ storeLookup h.store k = some (p, b) ∧ C.dec b = none)) ∧
    (∀ h p b v, s = some h → storeLookup h.store k = some (p, b) →
      C.dec b = some v → get k C s = some (p, v)) := by
  cases s with
  | none =>
    refine ⟨⟨fun _ => Or.inl rfl, fun _ => rfl⟩, ?_⟩
    intro h p b v hs
    cases hs
  | some h =>
    cases hl : storeLookup h.store k with
    | none =>
      refine ⟨⟨fun _ => Or.inr (Or.inl ⟨h, rfl, hl⟩), fun _ => by simp [get, hl]⟩, ?_⟩
      intro h2 p b v hs hl2
      injection hs with hh
      subst hh
      rw [hl] at hl2
      cases hl2
    | some e =>
      obtain ⟨p0, b0⟩ := e
      cases hd : C.dec b0 with
      | none =>
        refine ⟨⟨fun _ => Or.inr (Or.inr ⟨h, p0, b0, rfl, hl, hd⟩),
          fun _ => by simp [get, hl, hd]⟩, ?_⟩
        intro h2 p b v hs hl2 hd2
        injection hs with hh
        subst hh
        rw [hl] at hl2
        simp only [Option.some.injEq, Prod.mk.injEq] at hl2
        obtain ⟨hp, hb⟩ := hl2
        subst hp
        subst hb
        rw [hd] at hd2
        cases hd2
      | some v0 =>
        constructor
        · constructor
          · intro hn
            simp [get, hl, hd] at hn
          · intro hr
            exfalso
            rcases hr with h1 | ⟨h2, hs, hl2⟩ | ⟨h2, p, b, hs, hl2, hd2⟩
            · cases h1
            · injection hs with hh
              subst hh
              rw [hl] at hl2
              cases hl2
            · injection hs with hh
              subst hh
              rw [hl] at hl2
              simp only [Option.some.injEq, Prod.mk.injEq] at hl2
              obtain ⟨hp, hb⟩ := hl2
              subst hp
              subst hb
              rw [hd] at hd2
              cases hd2
        · intro h2 p b v hs hl2 hd2
          injection hs with hh
          subst hh
          rw [hl] at hl2
          simp only [Option.some.injEq, Prod.mk.injEq] at hl2
          obtain ⟨hp, hb⟩ := hl2
          subst hp
          subst hb
          rw [hd] at hd2
          injection hd2 with hv
          subst hv
          simp [get, hl, hd]

/-- Witness for claim C7: the some-case at a concrete bool entry. -/
theorem get_none_characterization_witness :
    get "a" boolCodec (some ⟨1, none, [("a", (Expiration.Never, [1]))]⟩) =
      some (Expiration.Never, true) :=
  (get_none_characterization boolCodec "a"
      (some ⟨1, none, [("a", (Expiration.Never, [1]))]⟩)).2
    ⟨1, none, [("a", (Expiration.Never, [1]))]⟩ Expiration.Never [1] true
    rfl (by decide) (by decide)

/-- Claim C8: a get whose decode fails changes nothing — on the very same
state the entry is still present, so a get at the original type, get_exp and
contains_key all still succeed.  In the source, get performs no store
mutation, so state preservation is inherent and the content is that the
failed read coexists with the successful ones. -/
theorem decode_failure_preserves_entry {A B : Type} (h : AppCache) (k : String)
    (p : Expiration) (b : Bytes) (CA : Codec A) (CB : Codec B) (v : A)
    (hl : storeLookup h.store k = some (p, b))
    (hB : CB.dec b = none) (hA : CA.dec b = some v) :
    get k CB (some h) = none ∧
    get k CA (some h) = some (p, v) ∧
    get_exp k (some h) = some p ∧
    contains_key k (some h) = true := by
  simp [get, get_exp, contains_key, hl, hB, hA]

/-- Witness for claim C8: the payload of a stored bool fails to decode as a
byte vector yet the entry stays readable. -/
theorem decode_failure_preserves_entry_witness :
    get "k" vecU8Codec (some ⟨512, none, [("k", (Expiration.Second 5, [1]))]⟩) = none ∧
    get "k" boolCodec (some ⟨512, none, [("k", (Expiration.Second 5, [1]))]⟩) =
      some (Expiration.Second 5, true) ∧
    get_exp "k" (some ⟨512, none, [("k", (Expiration.Second 5, [1]))]⟩) =
      some (Expiration.Second 5) ∧
    contains_key "k" (some ⟨512, none, [("k", (Expiration.Second 5, [1]))]⟩) = true :=
  decode_failure_preserves_entry ⟨512, none, [("k", (Expiration.Second 5, [1]))]⟩
    "k" (Expiration.Second 5) [1] boolCodec vecU8Codec true
    (by decide) (by decide) (by decide)

/-- Claim C9: the expiration hook returns exactly the resolution of the
policy stored in the entry, independently of the key, the payload bytes and
the current-time argument. -/
theorem expire_after_create_spec (k k2 : String) (p : Expiration)
    (b b2 : Bytes) (t t2 : Nat) :
    expire_after_create k (p, b) t = p.as_duration ∧
    expire_after_create k (p, b) t = expire_after_create k2 (p, b2) t2 :=
  ⟨rfl, rfl⟩

/-- Claim C10: contains_key depends only on key presence and never on the
payload; on a state reached by setup followed by an insert of a bool,
contains_key is true while get at the byte-vector type is none. -/
theorem contains_key_payload_independent :
    (∀ (st : AppCache) (k : String) (p : Expiration) (b : Bytes),
        storeLookup st.store k = some (p, b) → contains_key k (some st) = true) ∧
    contains_key "k"
        (insert "k" true Expiration.Never boolCodec (setup none 512 none).2).2 = true ∧
    get "k" vecU8Codec
        (insert "k" true Expiration.Never boolCodec (setup none 512 none).2).2 = none := by
  refine ⟨?_, by decide, by decide⟩
  intro st k p b hl
  simp [contains_key, hl]

/-- Witness for claim C10: presence at a concrete entry regardless of its
payload. -/
theorem contains_key_payload_independent_witness :
    contains_key "a" (some ⟨1, none, [("a", (Expiration.Never, [7]))]⟩) = true :=
  contains_key_payload_independent.1 ⟨1, none, [("a", (Expiration.Never, [7]))]⟩
    "a" Expiration.Never [7] (by decide)

end MokaCache
